import Mathlib

/-!
Shallow embedding of `src/athena-sql-db.ts` (the `AthenaSqlDatabase` facade
and its utility module): the data model (`SqlTable`, `SqlColumn`, raw
information-schema rows), the validators, the schema-loader fold
(`formatToSqlTable`), the table-info formatter
(`generateTableInfoFromTables`) and the `run` serializer.

Conventions of the embedding:
- TypeScript `undefined`/optional values become `Option`.
- A thrown `Error` becomes `Except.error` carrying the message string.
- The external query client is an oracle `String → Except String (List Row)`;
  a row is an association list of field name to scalar cell value.
- Functions that issue queries additionally return the list of query strings
  they issued, so that "no query was issued" is a provable statement.
-/

namespace AthenaAdapter

/-- A scalar cell value as it appears in a query-result row object. -/
inductive Cell where
  | strVal (s : String)
  | numVal (n : Int)
  | boolVal (b : Bool)
  | nullVal
deriving DecidableEq, Repr

/-- JavaScript template-literal rendering of a cell value. -/
def Cell.display : Cell → String
  | Cell.strVal s => s
  | Cell.numVal n => toString n
  | Cell.boolVal true => "true"
  | Cell.boolVal false => "false"
  | Cell.nullVal => "null"

/-- JSON rendering of a cell value, as `JSON.stringify` does. -/
def Cell.toJson : Cell → String
  | Cell.strVal s => "\"" ++ s ++ "\""
  | Cell.numVal n => toString n
  | Cell.boolVal true => "true"
  | Cell.boolVal false => "false"
  | Cell.nullVal => "null"

/-- A result row: an object, field names with cell values. -/
def Row : Type := List (String × Cell)

instance : DecidableEq Row := by
  unfold Row
  infer_instance

/-- `JSON.stringify` of one row object. -/
def rowToJson (r : Row) : String :=
  "\x7b" ++ String.intercalate "," (r.map (fun kv => "\"" ++ kv.1 ++ "\":" ++ kv.2.toJson)) ++ "\x7d"

/-- `JSON.stringify` of a whole result set (an array of row objects). -/
def resultSetToJson (rows : List Row) : String :=
  "[" ++ String.intercalate "," (rows.map rowToJson) ++ "]"

/-- The query oracle: the `query(sql)` call of the external client, which either
returns a result set or throws. -/
def QueryOracle : Type := String → Except String (List Row)

/-- `SqlColumn` from `athena-sql-utils.ts`: `dataType` and `isNullable` are
optional fields there. -/
structure SqlColumn where
  columnName : String
  dataType : Option String
  isNullable : Option Bool
deriving DecidableEq, Repr

/-- `SqlTable` from `athena-sql-utils.ts`. -/
structure SqlTable where
  tableName : String
  columns : List SqlColumn
deriving DecidableEq, Repr

/-- `RawResultTableAndColumn` from `athena-sql-utils.ts`: one flat
information-schema row. `is_nullable` is `Option` because the row objects
come untyped from the query client and the field may be absent. -/
structure RawResultTableAndColumn where
  table_name : String
  column_name : String
  data_type : Option String
  is_nullable : Option String
deriving DecidableEq, Repr

/-- The first name of `l` that is not contained in `names` (the loop of
`verifyListTablesExistInDatabase`, which throws at the first missing name). -/
def firstMissingName (names : List String) : List String → Option String
  | [] => none
  | n :: rest => if names.contains n then firstMissingName names rest else some n

/-- `verifyListTablesExistInDatabase`: for every candidate name not present
among the loaded table names, throw naming the caller message and the
missing table. -/
def verifyListTablesExistInDatabase (tablesFromDatabase : List SqlTable)
    (listTables : List String) (errorPrefixMsg : String) : Except String Unit :=
  match firstMissingName (tablesFromDatabase.map (fun t => t.tableName)) listTables with
  | some n =>
    Except.error (errorPrefixMsg ++ " the table " ++ n ++ " was not found in the database")
  | none => Except.ok ()

/-- `verifyIncludeTablesExistInDatabase`. -/
def verifyIncludeTablesExistInDatabase (tablesFromDatabase : List SqlTable)
    (includeTables : List String) : Except String Unit :=
  verifyListTablesExistInDatabase tablesFromDatabase includeTables
    "Include tables not found in database:"

/-- `verifyIgnoreTablesExistInDatabase`. -/
def verifyIgnoreTablesExistInDatabase (tablesFromDatabase : List SqlTable)
    (ignoreTables : List String) : Except String Unit :=
  verifyListTablesExistInDatabase tablesFromDatabase ignoreTables
    "Ignore tables not found in database:"

/-- The construction parameters (`AthenaSqlDatabaseDataSourceParams`), minus
the opaque connection config that is passed through to the external client.
`Option.none` stands for an absent (undefined) field. -/
structure AthenaSqlDatabaseDataSourceParams where
  includesTables : Option (List String)
  ignoreTables : Option (List String)
  sampleRowsInTableInfo : Option Nat
  customDescription : Option (List (String × String))
deriving DecidableEq, Repr

/-- The state held by the facade (`AthenaSqlDatabase` fields), minus the external
client handle and its connection strings. -/
structure AthenaSqlDatabase where
  allTables : List SqlTable
  includesTables : List String
  ignoreTables : List String
  sampleRowsInTableInfo : Nat
  customDescription : Option (List (String × String))
deriving DecidableEq, Repr

/-- The synchronous constructor of `AthenaSqlDatabase`: rejects a config
carrying both table lists (a JavaScript array is truthy even when empty, so
the check is on presence, not emptiness), then fills defaults. -/
def AthenaSqlDatabase.construct (config : AthenaSqlDatabaseDataSourceParams) :
    Except String AthenaSqlDatabase :=
  if config.includesTables.isSome && config.ignoreTables.isSome then
    Except.error "Cannot specify both include_tables and ignoreTables"
  else
    Except.ok
      ⟨[], config.includesTables.getD [], config.ignoreTables.getD [],
        config.sampleRowsInTableInfo.getD 3, config.customDescription⟩

/-- The table-selection logic of `AthenaSqlDatabase.getTableInfo`: apply the
configured include list (when non-empty) then the configured ignore list
(when non-empty) to the loaded tables; a per-call target list that is present
and non-empty is validated against the full loaded list and then replaces the
filtered selection entirely. -/
def selectTables (allTables : List SqlTable) (includesTables ignoreTables : List String)
    (targetTables : Option (List String)) : Except String (List SqlTable) :=
  let afterInclude :=
    if includesTables.length > 0 then
      allTables.filter (fun currentTable => includesTables.contains currentTable.tableName)
    else allTables
  let afterIgnore :=
    if ignoreTables.length > 0 then
      afterInclude.filter (fun currentTable => !(ignoreTables.contains currentTable.tableName))
    else afterInclude
  match targetTables with
  | some ts =>
    if ts.length > 0 then
      match verifyListTablesExistInDatabase allTables ts "Wrong target table name:" with
      | Except.error e => Except.error e
      | Except.ok _ =>
        Except.ok (allTables.filter (fun currentTable => ts.contains currentTable.tableName))
    else Except.ok afterIgnore
  | none => Except.ok afterIgnore

/-- The column built for one raw information-schema row inside
`formatToSqlTable`: nullable iff `is_nullable` is exactly the string
`"YES"` (strict equality, so an absent value is not nullable). -/
def mkSqlColumn (oneResult : RawResultTableAndColumn) : SqlColumn :=
  ⟨oneResult.column_name, oneResult.data_type, some (oneResult.is_nullable == some "YES")⟩

/-- One step of the `formatToSqlTable` loop: find the first table whose name
matches the `table_name` of the row and push the column onto it, or append a new
table at the end. -/
def addColumnToTables : List SqlTable → RawResultTableAndColumn → List SqlTable
  | [], oneResult => [⟨oneResult.table_name, [mkSqlColumn oneResult]⟩]
  | t :: rest, oneResult =>
    if t.tableName = oneResult.table_name then
      ⟨t.tableName, t.columns ++ [mkSqlColumn oneResult]⟩ :: rest
    else
      t :: addColumnToTables rest oneResult

/-- `formatToSqlTable`: fold the flat information-schema rows into one
`SqlTable` per distinct table name. -/
def formatToSqlTable (rawResultsTableAndColumn : List RawResultTableAndColumn) :
    List SqlTable :=
  rawResultsTableAndColumn.foldl addColumnToTables []

/-- One column entry of the pseudo-DDL:
`<columnName> <dataType> <NOT NULL or empty>`; an absent data type renders as
the literal `undefined`, as a JavaScript template literal does. -/
def columnDefEntry (currentColumn : SqlColumn) : String :=
  currentColumn.columnName ++ " " ++
    (match currentColumn.dataType with
     | some d => d
     | none => "undefined") ++ " " ++
    (match currentColumn.isNullable with
     | some true => ""
     | _ => "NOT NULL")

/-- The pseudo-DDL block of one table: `CREATE TABLE <name> (` + newline +
comma-separated column entries + `) ` + newline. -/
def sqlCreateTableQuery (currentTable : SqlTable) : String :=
  "CREATE TABLE " ++ currentTable.tableName ++ " (\n" ++
    String.intercalate ", " (currentTable.columns.map columnDefEntry) ++ ") \n"

/-- The sample-select statement of one table:
`SELECT * FROM <name> LIMIT <n>;` + newline. -/
def sqlSelectInfoQuery (nbSampleRow : Nat) (currentTable : SqlTable) : String :=
  "SELECT * FROM " ++ currentTable.tableName ++ " LIMIT " ++ toString nbSampleRow ++ ";\n"

/-- The column-name line: the names folded with a leading space each (the
fold starts from the empty string), newline-terminated. -/
def columnNamesConcatString (currentTable : SqlTable) : String :=
  (currentTable.columns.foldl (fun completeString column =>
    completeString ++ " " ++ column.columnName) "") ++ "\n"

/-- `formatSqlResponseToSimpleTableString`: `none` models the `null` passed
when no query was issued; each row renders as its cell values folded with a
leading space each, newline-terminated. -/
def formatSqlResponseToSimpleTableString (rawResult : Option (List Row)) : String :=
  match rawResult with
  | none => ""
  | some rows =>
    rows.foldl (fun globalString oneRow =>
      globalString ++
        (oneRow.foldl (fun completeString kv => completeString ++ " " ++ kv.2.display) "") ++
        "\n") ""

/-- The custom-description block of one table: the configured text plus a
newline when the description map has the name of the table as a key. -/
def tableCustomDescription (customDescription : Option (List (String × String)))
    (currentTable : SqlTable) : String :=
  match customDescription with
  | some d =>
    match d.lookup currentTable.tableName with
    | some s => s ++ "\n"
    | none => ""
  | none => ""

/-- The sample text of one table: when the sample row count is non-zero the
sample query is issued and a thrown error is caught (the sample text stays
empty); a zero count issues no query and formats `null`. -/
def sampleTextOf (q : QueryOracle) (nbSampleRow : Nat) (currentTable : SqlTable) : String :=
  if nbSampleRow ≠ 0 then
    match q (sqlSelectInfoQuery nbSampleRow currentTable) with
    | Except.ok rows => formatSqlResponseToSimpleTableString (some rows)
    | Except.error _ => ""
  else formatSqlResponseToSimpleTableString none

/-- One iteration of the `generateTableInfoFromTables` loop: append the
blocks of the table to the accumulated text and record the sample query when one
is issued (a zero sample row count issues none). -/
def tableFoldStep (q : QueryOracle) (nbSampleRow : Nat)
    (customDescription : Option (List (String × String)))
    (acc : String × List String) (currentTable : SqlTable) : String × List String :=
  (acc.1 ++
    (tableCustomDescription customDescription currentTable ++
      sqlCreateTableQuery currentTable ++
      sqlSelectInfoQuery nbSampleRow currentTable ++
      columnNamesConcatString currentTable ++
      sampleTextOf q nbSampleRow currentTable),
   acc.2 ++ (if nbSampleRow ≠ 0 then [sqlSelectInfoQuery nbSampleRow currentTable] else []))

/-- `generateTableInfoFromTables`: `none` models the `undefined` guard of the
source; the result pairs the produced text with the sample queries issued. -/
def generateTableInfoFromTables (tables : Option (List SqlTable)) (q : QueryOracle)
    (nbSampleRow : Nat) (customDescription : Option (List (String × String))) :
    String × List String :=
  match tables with
  | none => ("", [])
  | some ts => ts.foldl (tableFoldStep q nbSampleRow customDescription) ("", [])

/-- `AthenaSqlDatabase.getTableInfo`: select the tables (a failing target
validation aborts before any sample query), then delegate to the formatter.
The second component is the list of sample queries issued. -/
def AthenaSqlDatabase.getTableInfo (db : AthenaSqlDatabase) (q : QueryOracle)
    (targetTables : Option (List String)) : Except String String × List String :=
  match selectTables db.allTables db.includesTables db.ignoreTables targetTables with
  | Except.error e => (Except.error e, [])
  | Except.ok selectedTables =>
    let r := generateTableInfoFromTables (some selectedTables) q
      db.sampleRowsInTableInfo db.customDescription
    (Except.ok r.1, r.2)

/-- `FetchMode`: the `fetch` argument of `run`. -/
inductive FetchMode where
  | all
  | one
deriving DecidableEq, Repr

/-- `AthenaSqlDatabase.run`: execute the command through the client (a query
error propagates), then serialize the whole result set (`all`) or the first
row, or the empty string on an empty result set (`one`). -/
def AthenaSqlDatabase.run (q : QueryOracle) (command : String) (fetch : FetchMode) :
    Except String String :=
  match q command with
  | Except.error e => Except.error e
  | Except.ok res =>
    match fetch with
    | FetchMode.all => Except.ok (resultSetToJson res)
    | FetchMode.one =>
      match res with
      | r :: _ => Except.ok (rowToJson r)
      | [] => Except.ok ""

/-! Specification-side definitions: restatements of what the spec says the
code computes, to be compared with the embedded code above. -/

/-- Concatenation of a list of strings, in order, with no separator. -/
def joinStrings : List String → String
  | [] => ""
  | s :: rest => s ++ joinStrings rest

/-- Duplicate removal keeping the first occurrence of each element, in
first-seen order. -/
def firstSeen : List String → List String
  | [] => []
  | x :: xs => x :: (firstSeen xs).filter (fun y => y != x)

/-- The columns the spec assigns to table `n`: the rows naming `n`, in input
order, each converted to a column. -/
def specColumnsOf (rows : List RawResultTableAndColumn) (n : String) : List SqlColumn :=
  (rows.filter (fun r => r.table_name == n)).map mkSqlColumn

/-- The table list the spec describes: one table per distinct `table_name` in
first-seen order, carrying the columns of its rows in input order. -/
def specTablesOf (rows : List RawResultTableAndColumn) : List SqlTable :=
  (firstSeen (rows.map (fun r => r.table_name))).map (fun n => ⟨n, specColumnsOf rows n⟩)

/-- The per-table text block the spec describes: description, pseudo-DDL,
sample-select statement, column-name line, sample text. -/
def specTableBlock (q : QueryOracle) (nbSampleRow : Nat)
    (customDescription : Option (List (String × String))) (t : SqlTable) : String :=
  tableCustomDescription customDescription t ++ sqlCreateTableQuery t ++
    sqlSelectInfoQuery nbSampleRow t ++ columnNamesConcatString t ++
    sampleTextOf q nbSampleRow t

/-! Helper lemmas. -/

lemma mem_firstSeen {x : String} : ∀ {l : List String}, x ∈ firstSeen l ↔ x ∈ l := by
  intro l
  induction l with
  | nil => simp [firstSeen]
  | cons a l ih =>
    by_cases hxa : x = a
    · subst hxa
      simp [firstSeen]
    · simp [firstSeen, List.mem_filter, hxa, ih]

lemma nodup_firstSeen : ∀ (l : List String), (firstSeen l).Nodup := by
  intro l
  induction l with
  | nil => simp [firstSeen]
  | cons a l ih =>
    refine List.Nodup.cons ?_ (List.Nodup.filter _ ih)
    intro hmem
    have := (List.mem_filter.mp hmem).2
    simp at this

lemma firstSeen_append_singleton (x : String) : ∀ (l : List String),
    firstSeen (l ++ [x]) = if x ∈ l then firstSeen l else firstSeen l ++ [x] := by
  intro l
  induction l with
  | nil => simp [firstSeen]
  | cons a l ih =>
    have h1 : firstSeen ((a :: l) ++ [x]) =
        a :: (firstSeen (l ++ [x])).filter (fun y => y != a) := rfl
    rw [h1, ih]
    by_cases hxl : x ∈ l
    · rw [if_pos hxl, if_pos (List.mem_cons_of_mem a hxl)]
      rfl
    · by_cases hxa : x = a
      · subst hxa
        rw [if_neg hxl, if_pos (List.mem_cons_self x l)]
        rw [List.filter_append]
        have h2 : List.filter (fun y => y != x) [x] = [] := by simp
        rw [h2, List.append_nil]
        rfl
      · have hx : x ∉ a :: l := by simp [hxa, hxl]
        rw [if_neg hxl, if_neg hx]
        rw [List.filter_append]
        have h2 : List.filter (fun y => y != a) [x] = [x] := by simp [hxa]
        rw [h2]
        rfl

lemma firstMissingName_eq_find (names : List String) : ∀ (l : List String),
    firstMissingName names l = l.find? (fun n => !(names.contains n)) := by
  intro l
  induction l with
  | nil => simp [firstMissingName]
  | cons n l ih =>
    by_cases h : n ∈ names
    · have hc : names.contains n = true := by simpa using h
      have h1 : firstMissingName names (n :: l) = firstMissingName names l := by
        simp only [firstMissingName, hc]
        simp
      rw [h1, List.find?_cons_of_neg _ (by simp [h]), ih]
    · have hc : names.contains n = false := by simpa using h
      have h1 : firstMissingName names (n :: l) = some n := by
        simp only [firstMissingName, hc]
        simp
      rw [h1, List.find?_cons_of_pos _ (by simp [h])]

lemma specColumnsOf_append_singleton (p : List RawResultTableAndColumn)
    (r : RawResultTableAndColumn) (n : String) :
    specColumnsOf (p ++ [r]) n =
      specColumnsOf p n ++ (if r.table_name = n then [mkSqlColumn r] else []) := by
  unfold specColumnsOf
  rw [List.filter_append, List.map_append]
  congr 1
  by_cases h : r.table_name = n
  · simp [h]
  · simp [h]

lemma specColumnsOf_eq_nil (p : List RawResultTableAndColumn) (n : String)
    (h : n ∉ p.map (fun r => r.table_name)) : specColumnsOf p n = [] := by
  unfold specColumnsOf
  rw [List.filter_eq_nil_iff.mpr, List.map_nil]
  intro a ha
  simp only [beq_iff_eq]
  intro he
  exact h (he ▸ List.mem_map_of_mem (fun r => r.table_name) ha)

lemma addColumnToTables_map_of_notMem (ns : List String) (f : String → List SqlColumn)
    (r : RawResultTableAndColumn) (h : r.table_name ∉ ns) :
    addColumnToTables (ns.map (fun n => ⟨n, f n⟩)) r =
      ns.map (fun n => (⟨n, f n⟩ : SqlTable)) ++ [⟨r.table_name, [mkSqlColumn r]⟩] := by
  induction ns with
  | nil => rfl
  | cons a ns ih =>
    have ha : a ≠ r.table_name := by
      intro he
      exact h (he ▸ List.mem_cons_self a ns)
    simp only [List.map_cons, addColumnToTables]
    rw [if_neg ha, ih (fun hm => h (List.mem_cons_of_mem a hm))]
    rfl

lemma addColumnToTables_map_of_mem (ns : List String) (f : String → List SqlColumn)
    (r : RawResultTableAndColumn) (hnd : ns.Nodup) (h : r.table_name ∈ ns) :
    addColumnToTables (ns.map (fun n => ⟨n, f n⟩)) r =
      ns.map (fun n =>
        (⟨n, if n = r.table_name then f n ++ [mkSqlColumn r] else f n⟩ : SqlTable)) := by
  induction ns with
  | nil => cases h
  | cons a ns ih =>
    by_cases ha : a = r.table_name
    · subst ha
      have hnotin : r.table_name ∉ ns := (List.nodup_cons.mp hnd).1
      have htail : List.map (fun n => (⟨n, f n⟩ : SqlTable)) ns =
          List.map (fun n =>
            (⟨n, if n = r.table_name then f n ++ [mkSqlColumn r] else f n⟩ : SqlTable)) ns := by
        apply List.map_congr_left
        intro n hn
        have hne : n ≠ r.table_name := fun he => hnotin (he ▸ hn)
        simp [hne]
      simp only [List.map_cons, addColumnToTables]
      simp [htail]
    · have hmem : r.table_name ∈ ns := by
        rcases List.mem_cons.mp h with h1 | h1
        · exact absurd h1.symm ha
        · exact h1
      simp only [List.map_cons, addColumnToTables]
      rw [if_neg ha, ih (List.nodup_cons.mp hnd).2 hmem]
      simp [ha]

lemma addColumnToTables_specTablesOf (p : List RawResultTableAndColumn)
    (r : RawResultTableAndColumn) :
    addColumnToTables (specTablesOf p) r = specTablesOf (p ++ [r]) := by
  unfold specTablesOf
  rw [List.map_append, List.map_cons, List.map_nil, firstSeen_append_singleton]
  by_cases h : r.table_name ∈ p.map (fun x => x.table_name)
  · rw [if_pos h,
      addColumnToTables_map_of_mem _ _ _ (nodup_firstSeen _) (mem_firstSeen.mpr h)]
    apply List.map_congr_left
    intro n hn
    rw [specColumnsOf_append_singleton]
    by_cases hn2 : n = r.table_name
    · simp [hn2]
    · have hne : ¬ (r.table_name = n) := fun he => hn2 he.symm
      simp [hn2, hne]
  · rw [if_neg h,
      addColumnToTables_map_of_notMem _ _ _ (fun hm => h (mem_firstSeen.mp hm)),
      List.map_append]
    congr 1
    · apply List.map_congr_left
      intro n hn
      have hne : ¬ (r.table_name = n) := by
        intro he
        exact h (he ▸ mem_firstSeen.mp hn)
      rw [specColumnsOf_append_singleton]
      simp [hne]
    · rw [List.map_cons, List.map_nil, specColumnsOf_append_singleton]
      simp [specColumnsOf_eq_nil p r.table_name h]

lemma foldl_addColumnToTables (rows : List RawResultTableAndColumn) :
    ∀ (p : List RawResultTableAndColumn),
      rows.foldl addColumnToTables (specTablesOf p) = specTablesOf (p ++ rows) := by
  induction rows with
  | nil =>
    intro p
    simp
  | cons r rows ih =>
    intro p
    rw [List.foldl_cons, addColumnToTables_specTablesOf, ih]
    rw [List.append_assoc, List.singleton_append]

lemma formatToSqlTable_eq_spec (rows : List RawResultTableAndColumn) :
    formatToSqlTable rows = specTablesOf rows := by
  have h0 : specTablesOf [] = [] := rfl
  have h := foldl_addColumnToTables rows []
  rw [h0, List.nil_append] at h
  exact h

lemma foldl_tableFoldStep (q : QueryOracle) (nbSampleRow : Nat)
    (customDescription : Option (List (String × String))) :
    ∀ (ts : List SqlTable) (s : String) (l : List String),
      ts.foldl (tableFoldStep q nbSampleRow customDescription) (s, l) =
        (s ++ joinStrings (ts.map (specTableBlock q nbSampleRow customDescription)),
         l ++ (if nbSampleRow ≠ 0 then ts.map (sqlSelectInfoQuery nbSampleRow) else [])) := by
  intro ts
  induction ts with
  | nil =>
    intro s l
    simp [joinStrings]
  | cons t ts ih =>
    intro s l
    rw [List.foldl_cons,
      show tableFoldStep q nbSampleRow customDescription (s, l) t =
        (s ++ specTableBlock q nbSampleRow customDescription t,
         l ++ (if nbSampleRow ≠ 0 then [sqlSelectInfoQuery nbSampleRow t] else [])) from rfl,
      ih, List.map_cons, joinStrings]
    by_cases h : nbSampleRow = 0
    · subst h
      simp [String.append_assoc]
    · simp [h, String.append_assoc, List.append_assoc]

/-- The formatter output equals the per-table blocks the spec describes, concatenated in order,
and issues exactly one sample query per table unless the sample count is
zero. -/
lemma generateTableInfoFromTables_eq_spec (tables : List SqlTable) (q : QueryOracle)
    (nbSampleRow : Nat) (customDescription : Option (List (String × String))) :
    generateTableInfoFromTables (some tables) q nbSampleRow customDescription =
      (joinStrings (tables.map (specTableBlock q nbSampleRow customDescription)),
       if nbSampleRow = 0 then [] else tables.map (sqlSelectInfoQuery nbSampleRow)) := by
  have h1 : generateTableInfoFromTables (some tables) q nbSampleRow customDescription =
      tables.foldl (tableFoldStep q nbSampleRow customDescription) ("", []) := rfl
  rw [h1, foldl_tableFoldStep]
  by_cases h : nbSampleRow = 0
  · simp [h]
  · simp [h]

lemma firstMissingName_eq_none (names : List String) : ∀ (ts : List String),
    (∀ n ∈ ts, n ∈ names) → firstMissingName names ts = none := by
  intro ts
  induction ts with
  | nil => intro _; rfl
  | cons n ts ih =>
    intro h
    have hc : names.contains n = true := by
      simpa using h n (List.mem_cons_self n ts)
    simp only [firstMissingName, hc]
    simp only [if_true]
    exact ih (fun m hm => h m (List.mem_cons_of_mem n hm))

/-! Concrete inputs used by counterexamples and witnesses. -/

/-- The worked example table of the spec `t`. -/
def sampleTable : SqlTable :=
  ⟨"t", [⟨"id", some "int", some false⟩, ⟨"name", some "varchar", some true⟩]⟩

/-- An oracle whose every query succeeds with an empty result set. -/
def emptyOracle : QueryOracle := fun _ => Except.ok []

/-- An oracle whose every query throws. -/
def failingOracle : QueryOracle := fun _ => Except.error "query failed"

/-- An oracle returning one row with field `a` holding the number 1. -/
def oneRowOracle : QueryOracle := fun _ => Except.ok [[("a", Cell.numVal 1)]]

/-! The claims. -/

set_option maxRecDepth 16384 in
/-- Claim C1, counterexample: the formatter output on the worked example of
the spec does not contain the substring
`CREATE TABLE t (id int NOT NULL, name varchar )` — the code emits a newline
right after the opening parenthesis. -/
theorem claim1_counterexample :
    ¬ List.IsInfix "CREATE TABLE t (id int NOT NULL, name varchar )".data
      (generateTableInfoFromTables (some [sampleTable]) emptyOracle 0 none).1.data := by
  decide

set_option maxRecDepth 16384 in
/-- Claim C1 as amended: for table `t` with columns `id int` not nullable and
`name varchar` nullable and sample count 0, the produced text is exactly
`CREATE TABLE t (` + newline + `id int NOT NULL, name varchar ) ` + newline +
`SELECT * FROM t LIMIT 0;` + newline + ` id name` + newline; in particular it
contains `SELECT * FROM t LIMIT 0;` and the column-name line ` id name`, no
sample query is issued and the sample text is empty. -/
theorem claim1_formatter_worked_example : ∀ (q : QueryOracle),
    (generateTableInfoFromTables (some [sampleTable]) q 0 none).1 =
      "CREATE TABLE t (\nid int NOT NULL, name varchar ) \nSELECT * FROM t LIMIT 0;\n id name\n" ∧
    List.IsInfix "CREATE TABLE t (\nid int NOT NULL, name varchar ) \n".data
      (generateTableInfoFromTables (some [sampleTable]) q 0 none).1.data ∧
    List.IsInfix "SELECT * FROM t LIMIT 0;".data
      (generateTableInfoFromTables (some [sampleTable]) q 0 none).1.data ∧
    List.IsInfix " id name\n".data
      (generateTableInfoFromTables (some [sampleTable]) q 0 none).1.data ∧
    (generateTableInfoFromTables (some [sampleTable]) q 0 none).2 = [] ∧
    sampleTextOf q 0 sampleTable = "" := by
  intro q
  have hout : generateTableInfoFromTables (some [sampleTable]) q 0 none =
      ("CREATE TABLE t (\nid int NOT NULL, name varchar ) \nSELECT * FROM t LIMIT 0;\n id name\n",
       []) := rfl
  refine ⟨by rw [hout], ?_, ?_, ?_, by rw [hout], rfl⟩
  · rw [hout]
    decide
  · rw [hout]
    decide
  · rw [hout]
    decide

/-- Claim C2: whenever both the include-table list and the ignore-table list
are supplied (a JavaScript array, even empty, is truthy), the synchronous
constructor fails with the configuration error. -/
theorem claim2_construct_both_lists_error :
    ∀ (config : AthenaSqlDatabaseDataSourceParams),
      config.includesTables.isSome = true →
      config.ignoreTables.isSome = true →
      AthenaSqlDatabase.construct config =
        Except.error "Cannot specify both include_tables and ignoreTables" := by
  intro config h1 h2
  simp [AthenaSqlDatabase.construct, h1, h2]

/-- Claim C2, witness: a config with both lists supplied and non-empty. -/
theorem claim2_witness :
    (AthenaSqlDatabaseDataSourceParams.mk (some ["a"]) (some ["b"]) none
      none).includesTables.isSome = true ∧
    (AthenaSqlDatabaseDataSourceParams.mk (some ["a"]) (some ["b"]) none
      none).ignoreTables.isSome = true ∧
    AthenaSqlDatabase.construct ⟨some ["a"], some ["b"], none, none⟩ =
      Except.error "Cannot specify both include_tables and ignoreTables" :=
  ⟨rfl, rfl, claim2_construct_both_lists_error ⟨some ["a"], some ["b"], none, none⟩ rfl rfl⟩

/-- Claim C3: with no per-call target list, the selection is the loaded list
intersected with the include list when that is non-empty, then minus the
tables named in the ignore list when that is non-empty; it is a sublist of
the loaded list (order preserved) and membership is exactly as described. -/
theorem claim3_configured_filtering : ∀ (T : List SqlTable) (I G : List String),
    (∀ n ∈ I, n ∈ T.map (fun t => t.tableName)) →
    (∀ n ∈ G, n ∈ T.map (fun t => t.tableName)) →
    selectTables T I G none =
      Except.ok ((if I = [] then T else T.filter (fun t => I.contains t.tableName)).filter
        (fun t => !(G.contains t.tableName))) ∧
    ∃ s, selectTables T I G none = Except.ok s ∧ List.Sublist s T ∧
      ∀ x, x ∈ s ↔ x ∈ T ∧ (I = [] ∨ x.tableName ∈ I) ∧ x.tableName ∉ G := by
  intro T I G _ _
  have hmain : selectTables T I G none =
      Except.ok ((if I = [] then T else T.filter (fun t => I.contains t.tableName)).filter
        (fun t => !(G.contains t.tableName))) := by
    unfold selectTables
    by_cases hI : I = []
    · by_cases hG : G = []
      · subst hI
        subst hG
        simp
      · subst hI
        simp [List.length_pos, hG]
    · by_cases hG : G = []
      · subst hG
        simp [List.length_pos, hI]
      · simp [List.length_pos, hI, hG]
  refine ⟨hmain, _, hmain, ?_, ?_⟩
  · by_cases hI : I = []
    · rw [if_pos hI]
      exact List.filter_sublist T
    · rw [if_neg hI]
      exact (List.filter_sublist _).trans (List.filter_sublist T)
  · intro x
    by_cases hI : I = []
    · simp [hI, List.mem_filter]
    · simp [hI, List.mem_filter]
      tauto

/-- Claim C3, witness: three tables, include `a b`, ignore `b`; the selection
is exactly table `a`. -/
theorem claim3_witness :
    (∀ n ∈ (["a", "b"] : List String),
      n ∈ ([⟨"a", []⟩, ⟨"b", []⟩, ⟨"c", []⟩] : List SqlTable).map (fun t => t.tableName)) ∧
    (∀ n ∈ (["b"] : List String),
      n ∈ ([⟨"a", []⟩, ⟨"b", []⟩, ⟨"c", []⟩] : List SqlTable).map (fun t => t.tableName)) ∧
    selectTables [⟨"a", []⟩, ⟨"b", []⟩, ⟨"c", []⟩] ["a", "b"] ["b"] none =
      Except.ok [⟨"a", []⟩] :=
  ⟨by decide, by decide,
    ((claim3_configured_filtering [⟨"a", []⟩, ⟨"b", []⟩, ⟨"c", []⟩] ["a", "b"] ["b"]
      (by decide) (by decide)).1).trans (by rfl)⟩

/-- Claim C4: a non-empty per-call target list whose names all exist in the
loaded list overrides the configured include and ignore lists entirely: the
selection is the loaded list filtered to the target names (loaded order), the
same as with no configured lists at all, and a sublist of the loaded list. -/
theorem claim4_target_override : ∀ (T : List SqlTable) (I G ts : List String),
    ts ≠ [] →
    (∀ n ∈ ts, n ∈ T.map (fun t => t.tableName)) →
    selectTables T I G (some ts) =
      Except.ok (T.filter (fun t => ts.contains t.tableName)) ∧
    selectTables T I G (some ts) = selectTables T [] [] (some ts) ∧
    List.Sublist (T.filter (fun t => ts.contains t.tableName)) T := by
  intro T I G ts hne hall
  have hlen : ts.length > 0 := List.length_pos.mpr hne
  have hver : verifyListTablesExistInDatabase T ts "Wrong target table name:" =
      Except.ok () := by
    unfold verifyListTablesExistInDatabase
    rw [firstMissingName_eq_none _ _ hall]
  have hmain : ∀ (I2 G2 : List String), selectTables T I2 G2 (some ts) =
      Except.ok (T.filter (fun t => ts.contains t.tableName)) := by
    intro I2 G2
    simp [selectTables, hver, hlen]
  exact ⟨hmain I G, (hmain I G).trans (hmain [] []).symm, List.filter_sublist T⟩

/-- Claim C4, witness: target `b` overrides include `a` and ignore `a`. -/
theorem claim4_witness :
    (["b"] : List String) ≠ [] ∧
    (∀ n ∈ (["b"] : List String),
      n ∈ ([⟨"a", []⟩, ⟨"b", []⟩] : List SqlTable).map (fun t => t.tableName)) ∧
    selectTables [⟨"a", []⟩, ⟨"b", []⟩] ["a"] ["a"] (some ["b"]) =
      Except.ok [⟨"b", []⟩] :=
  ⟨by decide, by decide,
    ((claim4_target_override [⟨"a", []⟩, ⟨"b", []⟩] ["a"] ["a"] ["b"]
      (by decide) (by decide)).1).trans (by rfl)⟩

/-- Claim C5: a candidate list with at least one name absent from the loaded
tables makes the validator fail with the caller message followed by the
first missing name, and makes `getTableInfo` with that target list fail with
the target-intent message while issuing no sample query at all. -/
theorem claim5_missing_name_error : ∀ (T : List SqlTable) (ts : List String) (pre : String),
    (∃ n ∈ ts, n ∉ T.map (fun t => t.tableName)) →
    ∃ m, ts.find? (fun n => !((T.map (fun t => t.tableName)).contains n)) = some m ∧
      verifyListTablesExistInDatabase T ts pre =
        Except.error (pre ++ " the table " ++ m ++ " was not found in the database") ∧
      ∀ (inc ig : List String) (sr : Nat) (d : Option (List (String × String)))
        (q : QueryOracle),
        AthenaSqlDatabase.getTableInfo ⟨T, inc, ig, sr, d⟩ q (some ts) =
          (Except.error ("Wrong target table name: the table " ++ m ++
            " was not found in the database"), []) := by
  intro T ts pre hex
  have hsome : (ts.find? (fun n => !((T.map (fun t => t.tableName)).contains n))).isSome := by
    rw [List.find?_isSome]
    obtain ⟨n, hn, hnot⟩ := hex
    exact ⟨n, hn, by simpa using hnot⟩
  obtain ⟨m, hm⟩ := Option.isSome_iff_exists.mp hsome
  refine ⟨m, hm, ?_, ?_⟩
  · unfold verifyListTablesExistInDatabase
    rw [firstMissingName_eq_find, hm]
  · intro inc ig sr d q
    have hlen : ts.length > 0 := by
      obtain ⟨n, hn, _⟩ := hex
      exact List.length_pos.mpr (List.ne_nil_of_mem hn)
    have hver : verifyListTablesExistInDatabase T ts "Wrong target table name:" =
        Except.error ("Wrong target table name:" ++ " the table " ++ m ++
          " was not found in the database") := by
      unfold verifyListTablesExistInDatabase
      rw [firstMissingName_eq_find, hm]
    have hsel : selectTables T inc ig (some ts) =
        Except.error ("Wrong target table name:" ++ " the table " ++ m ++
          " was not found in the database") := by
      simp [selectTables, hver, hlen]
    have hmsg : ("Wrong target table name:" ++ " the table " ++ m ++
        " was not found in the database") =
        ("Wrong target table name: the table " ++ m ++
          " was not found in the database") := by
      rw [show ("Wrong target table name:" ++ " the table " : String) =
        "Wrong target table name: the table " from rfl]
    rw [← hmsg]
    simp [AthenaSqlDatabase.getTableInfo, hsel]

/-- Claim C5, witness: target name `zzz` is absent from the one loaded table
`a`; validation and `getTableInfo` fail as described. -/
theorem claim5_witness :
    (∃ n ∈ (["zzz"] : List String),
      n ∉ ([⟨"a", []⟩] : List SqlTable).map (fun t => t.tableName)) ∧
    (∃ m, (["zzz"] : List String).find?
        (fun n => !((([⟨"a", []⟩] : List SqlTable).map (fun t => t.tableName)).contains n)) =
          some m ∧
      verifyListTablesExistInDatabase [⟨"a", []⟩] ["zzz"] "P:" =
        Except.error ("P:" ++ " the table " ++ m ++ " was not found in the database") ∧
      ∀ (inc ig : List String) (sr : Nat) (d : Option (List (String × String)))
        (q : QueryOracle),
        AthenaSqlDatabase.getTableInfo ⟨[⟨"a", []⟩], inc, ig, sr, d⟩ q (some ["zzz"]) =
          (Except.error ("Wrong target table name: the table " ++ m ++
            " was not found in the database"), [])) :=
  ⟨by decide, claim5_missing_name_error [⟨"a", []⟩] ["zzz"] "P:" (by decide)⟩

/-- Claim C6: the formatter output is the concatenation of the per-table
blocks for every table of its input (so a sample failure never aborts the
remaining tables); with sample count zero it issues no query at all and the
sample text of every table is empty; and a table whose sample query throws
gets the empty sample text. -/
theorem claim6_sample_errors_contained : ∀ (tables : List SqlTable) (q : QueryOracle)
    (nbSampleRow : Nat) (customDescription : Option (List (String × String))),
    (generateTableInfoFromTables (some tables) q nbSampleRow customDescription).1 =
      joinStrings (tables.map (specTableBlock q nbSampleRow customDescription)) ∧
    (generateTableInfoFromTables (some tables) q 0 customDescription).2 = [] ∧
    (∀ t, sampleTextOf q 0 t = "") ∧
    (generateTableInfoFromTables (some tables) q nbSampleRow customDescription).2 =
      (if nbSampleRow = 0 then [] else tables.map (sqlSelectInfoQuery nbSampleRow)) ∧
    (∀ t e, q (sqlSelectInfoQuery nbSampleRow t) = Except.error e →
      sampleTextOf q nbSampleRow t = "") := by
  intro tables q nbSampleRow customDescription
  refine ⟨?_, ?_, ?_, ?_, ?_⟩
  · rw [generateTableInfoFromTables_eq_spec]
  · rw [generateTableInfoFromTables_eq_spec]
    simp
  · intro t
    rfl
  · rw [generateTableInfoFromTables_eq_spec]
  · intro t e he
    unfold sampleTextOf
    by_cases h : nbSampleRow = 0
    · subst h
      rfl
    · rw [if_pos h, he]

/-- Claim C7: the schema-loader fold produces one table per distinct
`table_name` in first-seen order (the name list is duplicate-free), each
carrying the columns of its rows in input order; the empty row list gives the
empty table list. -/
theorem claim7_fold_by_table : ∀ (rows : List RawResultTableAndColumn),
    formatToSqlTable rows = specTablesOf rows ∧
    (formatToSqlTable rows).map (fun t => t.tableName) =
      firstSeen (rows.map (fun r => r.table_name)) ∧
    ((formatToSqlTable rows).map (fun t => t.tableName)).Nodup ∧
    (∀ t ∈ formatToSqlTable rows,
      t.columns = (rows.filter (fun r => r.table_name == t.tableName)).map mkSqlColumn) ∧
    formatToSqlTable [] = [] := by
  intro rows
  have hspec := formatToSqlTable_eq_spec rows
  have hnames : (formatToSqlTable rows).map (fun t => t.tableName) =
      firstSeen (rows.map (fun r => r.table_name)) := by
    rw [hspec]
    unfold specTablesOf
    rw [List.map_map]
    exact List.map_id _
  refine ⟨hspec, hnames, ?_, ?_, rfl⟩
  · rw [hnames]
    exact nodup_firstSeen _
  · intro t ht
    rw [hspec] at ht
    unfold specTablesOf at ht
    obtain ⟨n, _, hn2⟩ := List.mem_map.mp ht
    subst hn2
    rfl

/-- Claim C8: a loaded column is nullable exactly when the row field
`is_nullable` is the exact string `YES`; `NO`, lowercase `yes` and an absent
value all give not-nullable. -/
theorem claim8_nullable_iff_yes :
    (∀ r : RawResultTableAndColumn,
      ((mkSqlColumn r).isNullable = some true ↔ r.is_nullable = some "YES") ∧
      ((mkSqlColumn r).isNullable = some false ↔ r.is_nullable ≠ some "YES")) ∧
    (mkSqlColumn ⟨"t", "c", none, some "NO"⟩).isNullable = some false ∧
    (mkSqlColumn ⟨"t", "c", none, some "yes"⟩).isNullable = some false ∧
    (mkSqlColumn ⟨"t", "c", none, none⟩).isNullable = some false ∧
    (mkSqlColumn ⟨"t", "c", none, some "YES"⟩).isNullable = some true := by
  refine ⟨?_, by decide, by decide, by decide, by decide⟩
  intro r
  constructor
  · simp [mkSqlColumn]
  · simp [mkSqlColumn]

/-- Claim C9: when the client returns result set `R`, `run` with `all`
returns the JSON text of all of `R`, and with `one` the JSON text of the
first row of `R`, or the empty string when `R` is empty. -/
theorem claim9_run_serialization : ∀ (q : QueryOracle) (command : String) (R : List Row),
    q command = Except.ok R →
    AthenaSqlDatabase.run q command FetchMode.all = Except.ok (resultSetToJson R) ∧
    AthenaSqlDatabase.run q command FetchMode.one =
      Except.ok (match R with
        | [] => ""
        | r :: _ => rowToJson r) := by
  intro q command R h
  unfold AthenaSqlDatabase.run
  rw [h]
  cases R with
  | nil => exact ⟨rfl, rfl⟩
  | cons r rest => exact ⟨rfl, rfl⟩

/-- Claim C9, witness: on the result set holding the single row with field
`a` equal to 1, `one` yields the JSON of the row; on the empty result set, the
empty string. -/
theorem claim9_witness :
    oneRowOracle "SELECT 1" = Except.ok [[("a", Cell.numVal 1)]] ∧
    AthenaSqlDatabase.run oneRowOracle "SELECT 1" FetchMode.one =
      Except.ok (rowToJson [("a", Cell.numVal 1)]) ∧
    emptyOracle "SELECT 1" = Except.ok [] ∧
    AthenaSqlDatabase.run emptyOracle "SELECT 1" FetchMode.one = Except.ok "" ∧
    AthenaSqlDatabase.run oneRowOracle "SELECT 1" FetchMode.all =
      Except.ok (resultSetToJson [[("a", Cell.numVal 1)]]) :=
  ⟨rfl,
    (claim9_run_serialization oneRowOracle "SELECT 1" [[("a", Cell.numVal 1)]] rfl).2,
    rfl,
    (claim9_run_serialization emptyOracle "SELECT 1" [] rfl).2,
    (claim9_run_serialization oneRowOracle "SELECT 1" [[("a", Cell.numVal 1)]] rfl).1⟩

/-- Claim C10: an empty per-call target list does not trigger the override:
`getTableInfo` behaves exactly as with no target argument (so the configured
include/ignore filtering applies and no target validation occurs). -/
theorem claim10_empty_target_list : ∀ (db : AthenaSqlDatabase) (q : QueryOracle),
    AthenaSqlDatabase.getTableInfo db q (some []) =
      AthenaSqlDatabase.getTableInfo db q none ∧
    selectTables db.allTables db.includesTables db.ignoreTables (some []) =
      selectTables db.allTables db.includesTables db.ignoreTables none := by
  intro db q
  exact ⟨rfl, rfl⟩

end AthenaAdapter
